import Mathlib

/-!
Verification of the mcpadapt repository: a shallow embedding of
`src/mcpadapt/core.py`, `src/mcpadapt/smolagents_adapter.py` and
`src/mcpadapt/crewai_adapter.py`, together with theorems settling the
specified behaviour of the Facade/Bridge (`MCPAdapt`), the adapters and
the schema utilities.

Python data is embedded as follows: dictionaries and JSON documents become
the inductive `Json` type (association lists for objects, preserving
insertion order); a Python function that can raise becomes a Lean function
into `Except PyErr`; the background thread, event loop and readiness event
of `MCPAdapt` become an explicit `BridgeState` record, with the external
MCP server modelled by a `ServerBehavior` describing what the bridge can
observe of it (when the connect/handshake/first-listing sequence completes,
and the tool list returned by each successive `list_tools` call).
-/

/-- JSON values (Python dict/list/str/num/bool/None), used for tool input
schemas and tool-call arguments. Objects are association lists in insertion
order, as Python dicts preserve insertion order. -/
inductive Json where
  | null
  | bool (b : Bool)
  | num (n : Int)
  | str (s : String)
  | arr (items : List Json)
  | obj (fields : List (String × Json))

/-- Python exceptions raised by the embedded code. -/
inductive PyErr where
  | runtimeError (msg : String)
  | typeError
  | attributeError
  | indexError
  | notImplementedError (msg : String)
deriving Repr, DecidableEq

/-- Lookup of a key in a JSON object field list: Python `d[k]` / `d.get(k)`
returns the last-written binding; with distinct keys (the only case the
source produces) this is plain association-list lookup. -/
def Json.lookup (fields : List (String × Json)) (k : String) : Option Json :=
  match fields with
  | [] => none
  | (k2, v) :: rest => if k2 = k then some v else Json.lookup rest k

/-! ## smolagents_adapter._sanitize_function_name (C10)

Embeds `_sanitize_function_name` of `src/mcpadapt/smolagents_adapter.py`:
dashes are replaced by underscores, characters that are not alphanumeric or
underscore are removed (`re.sub(r"[^\w_]", "", name)`, approximated over
ASCII word characters), a leading digit gets a leading underscore prefixed,
and a Python keyword gets an underscore appended. `name[0]` on the empty
string raises IndexError, which the embedding returns as `PyErr.indexError`. -/

/-- Python keywords, as recognised by `keyword.iskeyword`. -/
def pythonKeywords : List String :=
  ["False", "None", "True", "and", "as", "assert", "async", "await",
   "break", "class", "continue", "def", "del", "elif", "else", "except",
   "finally", "for", "from", "global", "if", "import", "in", "is",
   "lambda", "nonlocal", "not", "or", "pass", "raise", "return", "try",
   "while", "with", "yield"]

/-- A word character in the sense of the regex character class of
`re.sub(r"[^\w_]", "", name)`: alphanumeric or underscore. -/
def isWordChar (c : Char) : Bool := c.isAlphanum || c = '_'

/-- Embedding of `_sanitize_function_name`. -/
def sanitizeFunctionName (name : String) : Except PyErr String :=
  -- name = name.replace("-", "_")
  let chars := name.toList.map (fun c => if c = '-' then '_' else c)
  -- name = re.sub(r"[^\w_]", "", name)
  let chars := chars.filter isWordChar
  -- name[0] raises IndexError when name is empty
  match chars with
  | [] => .error .indexError
  | c :: _ =>
    let name := String.mk chars
    -- if name[0].isdigit(): name = f"_{name}"
    let name := if c.isDigit then "_" ++ name else name
    -- if keyword.iskeyword(name): name = f"{name}_"
    .ok (if pythonKeywords.contains name then name ++ "_" else name)

/-! ## ToolAdapter.async_adapt and its overrides (C8) -/

/-- Embedding of the default `ToolAdapter.async_adapt` of
`src/mcpadapt/core.py` (lines 45-67): the base class raises
NotImplementedError for every input. `α` stands for the coroutine argument
`afunc` and `τ` for the tool metadata; the result type `β` is free because
the call never returns normally. -/
def ToolAdapter.asyncAdapt (afunc : α) (mcp_tool : τ) : Except PyErr β :=
  .error (.notImplementedError
    "Async adaptation is not supported for this Agent framework.")

/-- Embedding of `SmolAgentsAdapter.async_adapt` of
`src/mcpadapt/smolagents_adapter.py` (lines 242-247). -/
def SmolAgentsAdapter.asyncAdapt (afunc : α) (mcp_tool : τ) : Except PyErr β :=
  .error (.notImplementedError
    "async is not supported by the SmolAgents framework.")

/-- Embedding of `CrewAIAdapter.async_adapt` of
`src/mcpadapt/crewai_adapter.py` (lines 103-108). -/
def CrewAIAdapter.asyncAdapt (afunc : α) (mcp_tool : τ) : Except PyErr β :=
  .error (.notImplementedError
    "async is not supported by the CrewAI framework.")

/-- Whether an adaptation outcome is a NotImplementedError, as opposed to a
successful (possibly silently downgraded) tool or an unrelated error. -/
def isNotImplementedError (r : Except PyErr β) : Bool :=
  match r with
  | .error (.notImplementedError _) => true
  | _ => false

/-! ## CrewAIMCPTool None filtering (C6)

Embeds the kwargs-filtering loop of `CrewAIMCPTool._run` in
`src/mcpadapt/crewai_adapter.py` (lines 65-89). A keyword argument whose
value is None is dropped unless its property schema allows null; the checks
are sequential: when the type of the property schema is a list, only
membership of "null" in that list is consulted, otherwise an anyOf list is
scanned for an option of type "null". -/

/-- Embedding of `any(opt.get("type") == "null" for opt in prop_schema["anyOf"])`:
scans the options left to right, short-circuiting at the first option whose
type is the string "null"; a non-dict option makes Python raise
(AttributeError on `opt.get`), embedded as an error. -/
def anyOfOptionAllowsNull : List Json → Except PyErr Bool
  | [] => .ok false
  | opt :: rest =>
    match opt with
    | .obj ofs =>
      match Json.lookup ofs "type" with
      | some (.str s) => if s = "null" then .ok true else anyOfOptionAllowsNull rest
      | _ => anyOfOptionAllowsNull rest
    | _ => .error .attributeError

/-- Embedding of the per-key decision of `_run` for a None value whose key is
in `schema_properties`: keep the key when the list-valued type contains
"null", else when an anyOf option has type "null"; otherwise drop it.
Python raises when `prop_schema` is not a dict (`.get` on a non-dict) or
when an anyOf value is not a list of dicts; both are embedded as errors. -/
def noneValueKept (prop : Json) : Except PyErr Bool :=
  match prop with
  | .obj fs =>
    match Json.lookup fs "type" with
    | some (.arr ts) =>
      -- if "null" in prop_schema["type"]
      .ok (ts.any (fun t => match t with | .str s => s = "null" | _ => false))
    | _ =>
      -- elif "anyOf" in prop_schema
      match Json.lookup fs "anyOf" with
      | some (.arr opts) => anyOfOptionAllowsNull opts
      | some _ => .error .typeError
      | none => .ok false
  | _ => .error .attributeError

/-- Embedding of the filtering loop of `_run`: builds `filtered_kwargs` in
iteration order; a None value whose key has a property schema goes through
`noneValueKept`, every other pair is kept unchanged. -/
def filterKwargs (props : List (String × Json)) :
    List (String × Json) → Except PyErr (List (String × Json))
  | [] => .ok []
  | (key, value) :: rest =>
    match value, Json.lookup props key with
    | .null, some prop =>
      match noneValueKept prop with
      | .ok true =>
        match filterKwargs props rest with
        | .ok tail => .ok ((key, Json.null) :: tail)
        | .error e => .error e
      | .ok false => filterKwargs props rest
      | .error e => .error e
    | _, _ =>
      match filterKwargs props rest with
      | .ok tail => .ok ((key, value) :: tail)
      | .error e => .error e

/-- The allows-null condition as C6 words it: the resolved property schema
lists "null" in a list-valued type, or contains an anyOf option of type
"null". Stated from the claim, for comparison with the sequential check the
code performs. -/
def claimAllowsNull (prop : Json) : Bool :=
  (match prop with
   | .obj fs =>
     (match Json.lookup fs "type" with
      | some (.arr ts) => ts.any (fun t => match t with | .str s => s = "null" | _ => false)
      | _ => false)
     ||
     (match Json.lookup fs "anyOf" with
      | some (.arr opts) =>
        opts.any (fun o =>
          match o with
          | .obj ofs =>
            (match Json.lookup ofs "type" with | some (.str s) => s = "null" | _ => false)
          | _ => false)
      | _ => false)
   | _ => false)

/-- C6 as stated, formalised: whenever the property schema of a key allows
null in the sense of the claim, an explicit None for that key is forwarded
unchanged. The code falsifies this for a schema with both a list-valued
type (without "null") and a null-admitting anyOf. -/
def NullForwardedWhenAllowed : Prop :=
  ∀ (props kwargs result : List (String × Json)) (key : String) (prop : Json),
    filterKwargs props kwargs = .ok result →
    Json.lookup props key = some prop →
    claimAllowsNull prop = true →
    (key, Json.null) ∈ kwargs →
    (key, Json.null) ∈ result

/-- A property schema with both a list-valued type not containing "null" and
an anyOf option of type "null": the claim calls this null-allowing, the
code drops a None for it (the anyOf branch is never reached when the type
is a list). -/
def mixedNullProp : Json :=
  Json.obj [("type", Json.arr [Json.str "string"]),
            ("anyOf", Json.arr [Json.obj [("type", Json.str "null")]])]

/-! ## Schema Resolver (C7)

Modelled from the spec: the implementation of
`resolve_refs_and_remove_defs` (module `mcpadapt/utils/modeling.py`) is not
among the repository files here; only its caller in
`src/mcpadapt/crewai_adapter.py` (line 57) and its test file are. Spec
section 4.1 gives the contract: `resolve(schema)` replaces all internal
references with inlined definitions and drops the definitions container; it
is idempotent; it fails closed by leaving unresolvable references in place
rather than raising. The model resolves references of the form
`#/$defs/<name>` against the `$defs` container of the root document, with a
fuel bound for reference chains inside definitions. -/

/-- Name of the definition an internal reference points at: a JSON object
whose "$ref" field is a string starting with "#/$defs/"; the prefix test is
spelt over the character list so that concrete documents evaluate. -/
def refName (j : Json) : Option String :=
  match j with
  | .obj fs =>
    match Json.lookup fs "$ref" with
    | some (.str s) =>
      match s.toList with
      | '#' :: '/' :: '$' :: 'd' :: 'e' :: 'f' :: 's' :: '/' :: rest =>
        some (String.mk rest)
      | _ => none
    | _ => none
  | _ => none

/-- The definitions container of a schema document: the "$defs" object of
the root, empty when absent. -/
def getDefs (schema : Json) : List (String × Json) :=
  match schema with
  | .obj fs =>
    match Json.lookup fs "$defs" with
    | some (.obj ds) => ds
    | _ => []
  | _ => []

/-- Drops every "$defs" binding from an object field list. -/
def removeDefsFields : List (String × Json) → List (String × Json)
  | [] => []
  | (k, v) :: rest =>
    if k = "$defs" then removeDefsFields rest else (k, v) :: removeDefsFields rest

/-- Drops the "$defs" definitions container from the root of a document. -/
def removeDefs (schema : Json) : Json :=
  match schema with
  | .obj fs => .obj (removeDefsFields fs)
  | j => j

/-- Replaces every resolvable internal reference by its (recursively
resolved) definition; an unresolvable reference node is left in place
untouched. Fuel bounds chains of references inside definitions; it
decreases at every step, so a structural recursion on it suffices. -/
def substRefs (defs : List (String × Json)) : Nat → Json → Json
  | 0, j => j
  | fuel + 1, j =>
    match refName j with
    | some n =>
      match Json.lookup defs n with
      | some body => substRefs defs fuel body
      | none => j
    | none =>
      match j with
      | .arr items => .arr (items.map (substRefs defs fuel))
      | .obj fs => .obj (fs.map (fun kv => (kv.1, substRefs defs fuel kv.2)))
      | j2 => j2

/-- Modelled from the spec: `resolve_refs_and_remove_defs(schema)` inlines
internal references and drops the definitions container. The fuel bounds
the inlining depth; any fuel at least the nesting depth of the document
plus its reference chains inlines everything, and the contract theorems
hold for every fuel, so the bound is not load-bearing. -/
def resolveRefsAndRemoveDefs (fuel : Nat) (schema : Json) : Json :=
  removeDefs (substRefs (getDefs schema) fuel schema)

/-- A concrete document exercising the resolver: one property referring to a
definition. -/
def refExampleSchema : Json :=
  Json.obj [("type", Json.str "object"),
            ("properties", Json.obj [("p", Json.obj [("$ref", Json.str "#/$defs/T")])]),
            ("$defs", Json.obj [("T", Json.obj [("type", Json.str "string")])])]

/-- The reference example with the reference inlined and the container
dropped. -/
def refExampleResolved : Json :=
  Json.obj [("type", Json.str "object"),
            ("properties", Json.obj [("p", Json.obj [("type", Json.str "string")])])]

/-! ## The Connection Bridge: MCPAdapt (C1, C2, C3, C4, C5, C9)

Embeds the `MCPAdapt` class of `src/mcpadapt/core.py`. The external MCP
server (stdio transport, handshake, ClientSession) is modelled by a
`ServerBehavior` describing everything the bridge can observe of it; the
constructor, the tools/atools accessors, the bound forwarding callable
`_sync_call_tool` and `close` become functions over an explicit
`BridgeState`. -/

/-- mcp.types.Tool: the metadata the server advertises for one tool. -/
structure MCPTool where
  name : String
  description : Option String
  inputSchema : Json

/-- Arguments dictionary of a call_tool request. -/
abbrev Arguments := List (String × Json)

/-- mcp.types.CallToolResult, reduced to its content list; the bridge never
inspects the content. -/
structure CallToolResult where
  content : List Json

/-- Observable behaviour of one external MCP server: `readyAt` is the time
(seconds) at which transport connect, handshake and first tool listing
complete, none when the sequence never completes (failed or hung startup);
`toolList i` is what the (i+1)-th `list_tools` call returns, so a server
that adds a tool between listings has `toolList 0` shorter than
`toolList 1`; `callResult` gives the result of `call_tool`. -/
structure ServerBehavior where
  readyAt : Option Nat
  toolList : Nat → List MCPTool
  callResult : String → Option Arguments → CallToolResult

/-- State of one MCPAdapt instance: `session` and `mcp_tools` are None until
`setup()` assigns them (core.py line 149); `taskSet` mirrors `self.task`;
`threadAlive` is whether the background thread started by `__init__` is
still running; `loopRunning` is whether the dedicated event loop is
processing scheduled work (true from thread start until the setup task
finishes or is cancelled, after which `run_until_complete` returns and
nothing runs the loop again); `threadsSpawned` counts background threads
this instance created. -/
structure BridgeState where
  session : Option ServerBehavior
  mcp_tools : Option (List MCPTool)
  taskSet : Bool
  threadAlive : Bool
  loopRunning : Bool
  threadsSpawned : Nat

/-- Outcome of `MCPAdapt.__init__` for the constructing caller. The
constructor starts the background thread and blocks in `self.ready.wait()`
with no timeout argument, so it either returns once setup signals
readiness, or blocks forever; `timeoutError` is in the type because the
spec expects it, and the theorems show the code never produces it. A
hanging constructor leaves the bridge in the stuck state it carries. -/
inductive InitOutcome where
  | ready (st : BridgeState) (elapsed : Nat)
  | timeoutError (bound : Nat)
  | hangsForever (st : BridgeState)

/-- Whether an init outcome is the setup-timeout error the spec requires. -/
def InitOutcome.isTimeoutErr : InitOutcome → Bool
  | .timeoutError _ => true
  | _ => false

/-- Embedding of `MCPAdapt.__init__` (core.py lines 124-141) together with
`_run_loop`/`setup` (lines 143-157): a thread is spawned unconditionally;
setup opens the session, stores session and the first tool listing, sets
the ready event and keeps the session alive; `ready.wait()` has no timeout,
so when the server never completes startup the constructor blocks forever
with the thread and loop still live and session/mcp_tools still None. -/
def MCPAdapt.init (server : ServerBehavior) : InitOutcome :=
  match server.readyAt with
  | some t =>
    .ready { session := some server
             mcp_tools := some (server.toolList 0)
             taskSet := true
             threadAlive := true
             loopRunning := true
             threadsSpawned := 1 } t
  | none =>
    .hangsForever { session := none
                    mcp_tools := none
                    taskSet := true
                    threadAlive := true
                    loopRunning := true
                    threadsSpawned := 1 }

/-- Outcome of invoking the bound forwarding callable `_sync_call_tool`
(core.py lines 172-177). -/
inductive CallOutcome where
  | ok (r : CallToolResult)
  | closedError
  | raised (e : PyErr)
  | hang

/-- Whether a call outcome is a clean closed-session error. -/
def CallOutcome.isClosedError : CallOutcome → Bool
  | .closedError => true
  | _ => false

/-- Embedding of `_sync_call_tool`: reads `self.session` and `self.loop` at
invocation time and submits the call with `run_coroutine_threadsafe`,
blocking on `.result()` with no timeout. When the dedicated loop is no
longer running (after close, `run_until_complete` has returned and only
`loop.stop` is ever scheduled again), the scheduled coroutine never
executes and the future never resolves, so the invocation blocks forever;
there is no code path producing a closed-session error. A None session
raises AttributeError on attribute access. -/
def MCPAdapt.syncCallTool (st : BridgeState) (name : String)
    (arguments : Option Arguments) : CallOutcome :=
  match st.session with
  | none => .raised .attributeError
  | some server =>
    if st.loopRunning then .ok (server.callResult name arguments) else .hang

/-- A forwarding callable as handed to the adapter: its behaviour depends on
the bridge state at invocation time, since `_sync_call_tool` reads
`self.session` and `self.loop` through the bound `self`. -/
abbrev ForwardingFunc := BridgeState → Option Arguments → CallOutcome

/-- Embedding of `MCPAdapt.tools` (core.py lines 159-182): raises when
`self.session` is still None, otherwise rebuilds the adapted list from the
`self.mcp_tools` snapshot stored by setup — it does not call `list_tools`
again. Iterating a None `self.mcp_tools` would raise (TypeError). -/
def MCPAdapt.tools (st : BridgeState)
    (adapt : ForwardingFunc → MCPTool → α) : Except PyErr (List α) :=
  match st.session with
  | none => .error (.runtimeError "Session not initialized")
  | some _ =>
    match st.mcp_tools with
    | none => .error .typeError
    | some ts =>
      .ok (ts.map (fun tool =>
        adapt (fun cur args => MCPAdapt.syncCallTool cur tool.name args) tool))

/-- Embedding of `MCPAdapt.atools` (core.py lines 198-210): no session
guard; rebuilds the async-adapted list from the same stored `self.mcp_tools`
snapshot, binding `partial(self.session.call_tool, tool.name)`. Iterating a
None snapshot raises TypeError; a None session raises AttributeError at the
first element. -/
def MCPAdapt.atools (st : BridgeState)
    (asyncAdaptF : (Option Arguments → CallToolResult) → MCPTool → α) :
    Except PyErr (List α) :=
  match st.mcp_tools with
  | none => .error .typeError
  | some ts =>
    match st.session with
    | none => if ts.isEmpty then .ok [] else .error .attributeError
    | some server =>
      .ok (ts.map (fun tool => asyncAdaptF (server.callResult tool.name) tool))

/-- The bridge state `close` leaves behind: the setup task is cancelled, the
background thread joined and the loop no longer runs anything. -/
def MCPAdapt.closedState (st : BridgeState) : BridgeState :=
  { st with threadAlive := false, loopRunning := false }

/-- Embedding of `MCPAdapt.close` (core.py lines 184-189): schedules
`task.cancel` on the loop when a task was created, joins the background
thread (unbounded; the cancellation unwinds setup so the thread exits),
then schedules `loop.stop`. `call_soon_threadsafe` only raises on a closed
loop and this code never closes the loop, so close always returns
normally, whatever state the bridge is in. -/
def MCPAdapt.close (st : BridgeState) : Except PyErr BridgeState :=
  .ok (MCPAdapt.closedState st)

/-- Outcome of the full asynchronous acquisition
`async with MCPAdapt(...)`: constructing the object runs `__init__` (which
always starts the background thread machinery), then `__aenter__` opens a
fresh `mcptools` context on the caller's own loop — spawning no further
thread — and rebinds `self.session` to the new session. -/
inductive AcquireOutcome where
  | ok (st : BridgeState)
  | hangs

/-- Number of background threads an acquisition outcome created, none when
the acquisition never returns. -/
def AcquireOutcome.threads : AcquireOutcome → Option Nat
  | .ok st => some st.threadsSpawned
  | .hangs => none

/-- Embedding of constructing and asynchronously entering an MCPAdapt
(core.py lines 124-141 and 212-215). -/
def MCPAdapt.asyncAcquire (server : ServerBehavior) : AcquireOutcome :=
  match MCPAdapt.init server with
  | .ready st _ => .ok { st with session := some server }
  | _ => .hangs

/-- C5 as stated, formalised: an asynchronous acquisition never creates a
background thread. The constructor falsifies this: it starts the dedicated
thread unconditionally before `__aenter__` ever runs. -/
def AsyncAcquireNoExtraThread : Prop :=
  ∀ (server : ServerBehavior) (t : Nat), server.readyAt = some t →
    (MCPAdapt.asyncAcquire server).threads = some 0

/-- C4 as stated (second half), formalised: invoking a forwarding callable
once the bridge is closed produces a clean closed-session error. The code
falsifies this: the invocation blocks forever instead. -/
def ForwardingClosedCleanly : Prop :=
  ∀ (st : BridgeState) (name : String) (args : Option Arguments),
    st.threadAlive = false → st.loopRunning = false →
    MCPAdapt.syncCallTool st name args = .closedError

/-- The echo tool of the test servers of tests/test_core.py. -/
def echoTool : MCPTool :=
  { name := "echo_tool"
    description := some "Echo the input text"
    inputSchema := Json.obj [("type", Json.str "object"),
      ("properties", Json.obj [("text", Json.obj [("type", Json.str "string")])])] }

/-- The tool the update server of tests/test_core.py adds after its first
listing. -/
def newTool : MCPTool :=
  { name := "new_tool"
    description := some "New tool"
    inputSchema := Json.obj [("type", Json.str "object"),
      ("properties", Json.obj [("text", Json.obj [("type", Json.str "string")])])] }

/-- An echo server that starts immediately and always advertises one tool. -/
def echoServer : ServerBehavior :=
  { readyAt := some 0
    toolList := fun _ => [echoTool]
    callResult := fun _ _ => { content := [Json.str "Echo: hello"] } }

/-- The update server of tests/test_core.py: its first listing has one tool,
every later listing has two. -/
def updateServer : ServerBehavior :=
  { readyAt := some 0
    toolList := fun i => if i = 0 then [echoTool] else [echoTool, newTool]
    callResult := fun _ _ => { content := [Json.str "Echo: hello"] } }

/-- The slow-start server of tests/test_core.py: startup takes 2 seconds,
exceeding the 1-second connect timeout the test requests. -/
def slowStartServer : ServerBehavior :=
  { readyAt := some 2
    toolList := fun _ => [echoTool]
    callResult := fun _ _ => { content := [Json.str "Echo: hello"] } }

/-- A server whose startup never completes (for example the process dies
before the handshake). -/
def neverReadyServer : ServerBehavior :=
  { readyAt := none
    toolList := fun _ => []
    callResult := fun _ _ => { content := [] } }

/-- The bridge state after a completed sync acquisition of the echo server
followed by close: session still bound, loop stopped, thread gone. -/
def closedEchoState : BridgeState :=
  { session := some echoServer
    mcp_tools := some [echoTool]
    taskSet := true
    threadAlive := false
    loopRunning := false
    threadsSpawned := 1 }

/-- A bridge state whose setup never assigned the session. -/
def uninitState : BridgeState :=
  { session := none
    mcp_tools := none
    taskSet := true
    threadAlive := true
    loopRunning := true
    threadsSpawned := 1 }

/-- A property schema whose list-valued type contains "null": the code keeps
an explicit None for such a key. -/
def nullableProp : Json :=
  Json.obj [("type", Json.arr [Json.str "string", Json.str "null"])]

/-- C8: for every adapter whose framework cannot represent asynchronous
tools (the base ToolAdapter default, SmolAgentsAdapter, CrewAIAdapter),
every call to the async adaptation operation raises an explicit
NotImplementedError: it never returns a tool (no silent downgrade) and
never fails with an unrelated error. -/
theorem asyncAdapt_always_notImplemented {α τ β : Type} (afunc : α) (mcp_tool : τ) :
    ToolAdapter.asyncAdapt (β := β) afunc mcp_tool
      = .error (.notImplementedError
          "Async adaptation is not supported for this Agent framework.") ∧
    SmolAgentsAdapter.asyncAdapt (β := β) afunc mcp_tool
      = .error (.notImplementedError
          "async is not supported by the SmolAgents framework.") ∧
    CrewAIAdapter.asyncAdapt (β := β) afunc mcp_tool
      = .error (.notImplementedError
          "async is not supported by the CrewAI framework.") ∧
    isNotImplementedError (ToolAdapter.asyncAdapt (β := β) afunc mcp_tool) = true ∧
    isNotImplementedError (SmolAgentsAdapter.asyncAdapt (β := β) afunc mcp_tool) = true ∧
    isNotImplementedError (CrewAIAdapter.asyncAdapt (β := β) afunc mcp_tool) = true :=
  ⟨rfl, rfl, rfl, rfl, rfl, rfl⟩

/-- C10: the tool-name sanitizer is not total on non-empty strings: on the
name consisting only of exclamation marks, every character is neither
alphanumeric, underscore nor dash, the intermediate string after the two
rewrites is empty, and indexing its first character raises (IndexError). -/
theorem sanitizeFunctionName_not_total_on_bangs :
    sanitizeFunctionName "!!!" = .error .indexError ∧
    "!!!" ≠ "" ∧
    ("!!!".toList.all (fun c => !isWordChar c && !(c = '-'))) = true :=
  ⟨rfl, by decide, by decide⟩

/-! ## Helper lemmas for the Schema Resolver -/

/-- Substitution against an empty definitions table changes nothing: every
reference is unresolvable and left in place. -/
theorem substRefs_nil (f : Nat) (j : Json) : substRefs [] f j = j := by
  induction f generalizing j with
  | zero => rfl
  | succ f ih =>
    cases hr : refName j with
    | some n => simp [substRefs, hr, Json.lookup]
    | none =>
      cases j with
      | null => rfl
      | bool b => rfl
      | num n => rfl
      | str s => rfl
      | arr items =>
        have hm : List.map (substRefs [] f) items = items :=
          (List.map_congr_left fun a _ => ih a).trans (List.map_id items)
        simp [substRefs, hr, hm]
      | obj fs => simp [substRefs, hr, ih]

/-- Dropping the "$defs" bindings removes the key entirely. -/
theorem lookup_removeDefsFields_defs (fs : List (String × Json)) :
    Json.lookup (removeDefsFields fs) "$defs" = none := by
  induction fs with
  | nil => rfl
  | cons kv rest ih =>
    obtain ⟨k, v⟩ := kv
    by_cases hk : k = "$defs"
    · simp [removeDefsFields, hk, ih]
    · simp [removeDefsFields, hk, Json.lookup, ih]

/-- Dropping the "$defs" bindings leaves every other key's binding as it
was. -/
theorem lookup_removeDefsFields_ne (fs : List (String × Json)) (k : String)
    (h : k ≠ "$defs") :
    Json.lookup (removeDefsFields fs) k = Json.lookup fs k := by
  induction fs with
  | nil => rfl
  | cons kv rest ih =>
    obtain ⟨k2, v⟩ := kv
    by_cases hk : k2 = "$defs"
    · subst hk
      have : ¬("$defs" = k) := fun he => h he.symm
      simp [removeDefsFields, Json.lookup, this, ih]
    · simp [removeDefsFields, hk, Json.lookup, ih]

/-- Dropping the "$defs" bindings twice is the same as once. -/
theorem removeDefsFields_idem (fs : List (String × Json)) :
    removeDefsFields (removeDefsFields fs) = removeDefsFields fs := by
  induction fs with
  | nil => rfl
  | cons kv rest ih =>
    obtain ⟨k, v⟩ := kv
    by_cases hk : k = "$defs"
    · simp [removeDefsFields, hk, ih]
    · simp [removeDefsFields, hk, ih]

/-- Dropping the definitions container does not touch a "$ref" field, so
the reference shape of a node survives. -/
theorem refName_removeDefs (j : Json) : refName (removeDefs j) = refName j := by
  cases j with
  | obj fs =>
    simp only [removeDefs, refName]
    rw [lookup_removeDefsFields_ne fs "$ref" (by decide)]
  | null => rfl
  | bool b => rfl
  | num n => rfl
  | str s => rfl
  | arr items => rfl

/-- A resolved document has no definitions container left. -/
theorem getDefs_resolve (f : Nat) (schema : Json) :
    getDefs (resolveRefsAndRemoveDefs f schema) = [] := by
  unfold resolveRefsAndRemoveDefs removeDefs
  cases substRefs (getDefs schema) f schema with
  | obj fs => simp [getDefs, lookup_removeDefsFields_defs]
  | null => rfl
  | bool b => rfl
  | num n => rfl
  | str s => rfl
  | arr items => rfl

/-- Removing the definitions container is idempotent. -/
theorem removeDefs_removeDefs (j : Json) :
    removeDefs (removeDefs j) = removeDefs j := by
  cases j with
  | obj fs => simp [removeDefs, removeDefsFields_idem]
  | null => rfl
  | bool b => rfl
  | num n => rfl
  | str s => rfl
  | arr items => rfl

/-- C7: the modelled schema resolution is idempotent (resolving a resolved
schema at any fuel yields the same schema), drops the $defs definitions
container from the result, replaces a resolvable internal $ref by its
inlined (recursively resolved) definition, leaves an unresolvable reference
in place rather than raising (the resolver is total and the $ref field
survives), and resolves a concrete document with one internal reference to
its inlined form. -/
theorem resolveRefsAndRemoveDefs_contract :
    (∀ (f1 f2 : Nat) (schema : Json),
      resolveRefsAndRemoveDefs f1 (resolveRefsAndRemoveDefs f2 schema)
        = resolveRefsAndRemoveDefs f2 schema) ∧
    (∀ (f : Nat) (schema : Json),
      getDefs (resolveRefsAndRemoveDefs f schema) = []) ∧
    (∀ (defs : List (String × Json)) (f : Nat) (j : Json) (n : String) (body : Json),
      refName j = some n → Json.lookup defs n = some body →
      substRefs defs (f + 1) j = substRefs defs f body) ∧
    (∀ (f : Nat) (schema : Json) (n : String),
      refName schema = some n → Json.lookup (getDefs schema) n = none →
      refName (resolveRefsAndRemoveDefs (f + 1) schema) = some n) ∧
    resolveRefsAndRemoveDefs 3 refExampleSchema = refExampleResolved := by
  refine ⟨?_, getDefs_resolve, ?_, ?_, rfl⟩
  · intro f1 f2 s
    show removeDefs (substRefs (getDefs (resolveRefsAndRemoveDefs f2 s)) f1
      (resolveRefsAndRemoveDefs f2 s)) = _
    rw [getDefs_resolve, substRefs_nil]
    show removeDefs (removeDefs (substRefs (getDefs s) f2 s)) = _
    exact removeDefs_removeDefs _
  · intro defs f j n body h1 h2
    simp [substRefs, h1, h2]
  · intro f s n h1 h2
    have hs : substRefs (getDefs s) (f + 1) s = s := by simp [substRefs, h1, h2]
    show refName (removeDefs (substRefs (getDefs s) (f + 1) s)) = some n
    rw [hs, refName_removeDefs]
    exact h1

/-! ## The None-filtering contract of CrewAIMCPTool (C6) -/

/-- C6 amended: for a key whose property schema exists, an explicit None is
forwarded exactly when the sequential check of the code
(`noneValueKept`) accepts: when the type of the property schema is
list-valued only "null" membership in that list counts (anyOf is not
consulted), otherwise an anyOf array is scanned; every pair with a non-None
value is forwarded unchanged. -/
theorem filterKwargs_null_key_spec (props : List (String × Json)) (key : String)
    (prop : Json) (hprop : Json.lookup props key = some prop) :
    ∀ (kwargs result : List (String × Json)),
      filterKwargs props kwargs = .ok result →
      (((key, Json.null) ∈ result ↔
        ((key, Json.null) ∈ kwargs ∧ noneValueKept prop = .ok true)) ∧
       (∀ v : Json, v ≠ Json.null → ((key, v) ∈ result ↔ (key, v) ∈ kwargs))) := by
  intro kwargs
  induction kwargs with
  | nil =>
    intro result hres
    simp [filterKwargs] at hres
    subst hres
    simp
  | cons head rest ih =>
    obtain ⟨k1, v1⟩ := head
    intro result hres
    cases v1 with
    | null =>
      cases hl : Json.lookup props k1 with
      | some p1 =>
        cases hn : noneValueKept p1 with
        | error e => simp [filterKwargs, hl, hn] at hres
        | ok b =>
          cases b with
          | true =>
            cases hrest : filterKwargs props rest with
            | error e => simp [filterKwargs, hl, hn, hrest] at hres
            | ok tail =>
              simp only [filterKwargs, hl, hn, hrest] at hres
              obtain ⟨⟩ := hres
              obtain ⟨iha, ihb⟩ := ih tail hrest
              constructor
              · by_cases hk : k1 = key
                · subst hk
                  have hp : p1 = prop := by
                    have h3 := hl.symm.trans hprop
                    injection h3
                  subst hp
                  simp [List.mem_cons, iha, hn]
                · have hne : ((key, Json.null) : String × Json) ≠ (k1, Json.null) :=
                    fun he => hk ((congrArg Prod.fst he).symm)
                  simp [List.mem_cons, hne, iha]
              · intro v hv
                have hne : ((key, v) : String × Json) ≠ (k1, Json.null) :=
                  fun he => hv (congrArg Prod.snd he)
                simp [List.mem_cons, hne, ihb v hv]
          | false =>
            simp only [filterKwargs, hl, hn] at hres
            obtain ⟨iha, ihb⟩ := ih result hres
            constructor
            · by_cases hk : k1 = key
              · subst hk
                have hp : p1 = prop := by
                  have h3 := hl.symm.trans hprop
                  injection h3
                subst hp
                simp [List.mem_cons, iha, hn]
              · have hne : ((key, Json.null) : String × Json) ≠ (k1, Json.null) :=
                  fun he => hk ((congrArg Prod.fst he).symm)
                simp [List.mem_cons, hne, iha]
            · intro v hv
              have hne : ((key, v) : String × Json) ≠ (k1, Json.null) :=
                fun he => hv (congrArg Prod.snd he)
              simp [List.mem_cons, hne, ihb v hv]
      | none =>
        cases hrest : filterKwargs props rest with
        | error e => simp [filterKwargs, hl, hrest] at hres
        | ok tail =>
          simp only [filterKwargs, hl, hrest] at hres
          obtain ⟨⟩ := hres
          obtain ⟨iha, ihb⟩ := ih tail hrest
          have hk : k1 ≠ key := by
            intro he
            rw [he, hprop] at hl
            cases hl
          constructor
          · have hne : ((key, Json.null) : String × Json) ≠ (k1, Json.null) :=
              fun he => hk ((congrArg Prod.fst he).symm)
            simp [List.mem_cons, hne, iha]
          · intro v hv
            have hne : ((key, v) : String × Json) ≠ (k1, Json.null) :=
              fun he => hv (congrArg Prod.snd he)
            simp [List.mem_cons, hne, ihb v hv]
    | bool b2 =>
      cases hrest : filterKwargs props rest with
      | error e => simp [filterKwargs, hrest] at hres
      | ok tail =>
        simp only [filterKwargs, hrest] at hres
        obtain ⟨⟩ := hres
        obtain ⟨iha, ihb⟩ := ih tail hrest
        constructor
        · have hne : ((key, Json.null) : String × Json) ≠ (k1, Json.bool b2) :=
            fun he => Json.noConfusion (congrArg Prod.snd he)
          simp [List.mem_cons, hne, iha]
        · intro v hv
          simp [List.mem_cons, ihb v hv]
    | num n2 =>
      cases hrest : filterKwargs props rest with
      | error e => simp [filterKwargs, hrest] at hres
      | ok tail =>
        simp only [filterKwargs, hrest] at hres
        obtain ⟨⟩ := hres
        obtain ⟨iha, ihb⟩ := ih tail hrest
        constructor
        · have hne : ((key, Json.null) : String × Json) ≠ (k1, Json.num n2) :=
            fun he => Json.noConfusion (congrArg Prod.snd he)
          simp [List.mem_cons, hne, iha]
        · intro v hv
          simp [List.mem_cons, ihb v hv]
    | str s2 =>
      cases hrest : filterKwargs props rest with
      | error e => simp [filterKwargs, hrest] at hres
      | ok tail =>
        simp only [filterKwargs, hrest] at hres
        obtain ⟨⟩ := hres
        obtain ⟨iha, ihb⟩ := ih tail hrest
        constructor
        · have hne : ((key, Json.null) : String × Json) ≠ (k1, Json.str s2) :=
            fun he => Json.noConfusion (congrArg Prod.snd he)
          simp [List.mem_cons, hne, iha]
        · intro v hv
          simp [List.mem_cons, ihb v hv]
    | arr items2 =>
      cases hrest : filterKwargs props rest with
      | error e => simp [filterKwargs, hrest] at hres
      | ok tail =>
        simp only [filterKwargs, hrest] at hres
        obtain ⟨⟩ := hres
        obtain ⟨iha, ihb⟩ := ih tail hrest
        constructor
        · have hne : ((key, Json.null) : String × Json) ≠ (k1, Json.arr items2) :=
            fun he => Json.noConfusion (congrArg Prod.snd he)
          simp [List.mem_cons, hne, iha]
        · intro v hv
          simp [List.mem_cons, ihb v hv]
    | obj fs2 =>
      cases hrest : filterKwargs props rest with
      | error e => simp [filterKwargs, hrest] at hres
      | ok tail =>
        simp only [filterKwargs, hrest] at hres
        obtain ⟨⟩ := hres
        obtain ⟨iha, ihb⟩ := ih tail hrest
        constructor
        · have hne : ((key, Json.null) : String × Json) ≠ (k1, Json.obj fs2) :=
            fun he => Json.noConfusion (congrArg Prod.snd he)
          simp [List.mem_cons, hne, iha]
        · intro v hv
          simp [List.mem_cons, ihb v hv]

/-- C6 counterexample: for the property schema with a list-valued type not
containing "null" and an anyOf option of type "null", the claim calls null
allowed (so the key must be forwarded), yet the code drops the key: the
anyOf clause is never consulted once the type is a list. -/
theorem filterKwargs_mixed_schema_counterexample :
    filterKwargs [("x", mixedNullProp)] [("x", Json.null)] = .ok [] ∧
    claimAllowsNull mixedNullProp = true ∧
    ¬ NullForwardedWhenAllowed := by
  refine ⟨rfl, rfl, fun h => ?_⟩
  have h2 := h [("x", mixedNullProp)] [("x", Json.null)] [] "x" mixedNullProp
    rfl rfl rfl (by simp)
  simp at h2

/-- Witness for the amended C6 statement: a nullable property (list-valued
type containing "null") with an explicit None is forwarded unchanged. -/
theorem filterKwargs_null_key_spec_witness :
    ((("n", Json.null) ∈ ([("n", Json.null)] : List (String × Json))) ↔
      ((("n", Json.null) ∈ ([("n", Json.null)] : List (String × Json))) ∧
        noneValueKept nullableProp = .ok true)) ∧
    (∀ v : Json, v ≠ Json.null →
      ((("n", v) ∈ ([("n", Json.null)] : List (String × Json))) ↔
        ("n", v) ∈ ([("n", Json.null)] : List (String × Json)))) :=
  filterKwargs_null_key_spec [("n", nullableProp)] "n" nullableProp rfl
    [("n", Json.null)] [("n", Json.null)] rfl

/-! ## Bridge theorems: acquisition, refresh, close (C1, C2, C3, C4, C5, C9) -/

/-- C1 (single-server part): once the constructor returns, the adapted tool
list the bridge yields has exactly one entry per tool of the first
advertised listing, in order. The collection form of the claim has no
counterpart in this code: the constructor takes one server only. -/
theorem mcpadapt_tools_one_per_advertised (server : ServerBehavior) (t : Nat)
    {α : Type} (adaptF : ForwardingFunc → MCPTool → α)
    (h : server.readyAt = some t) :
    ∃ st, MCPAdapt.init server = .ready st t ∧
      ∃ l, MCPAdapt.tools st adaptF = .ok l ∧
        l.length = (server.toolList 0).length := by
  refine ⟨{ session := some server
            mcp_tools := some (server.toolList 0)
            taskSet := true
            threadAlive := true
            loopRunning := true
            threadsSpawned := 1 }, ?_, ?_⟩
  · simp [MCPAdapt.init, h]
  · exact ⟨_, rfl, by simp [MCPAdapt.tools]⟩

/-- Witness: the echo server advertises one tool, and the bridge adapts
exactly one. -/
theorem mcpadapt_tools_one_per_advertised_witness :
    ∃ st, MCPAdapt.init echoServer = .ready st 0 ∧
      ∃ l, MCPAdapt.tools st (fun _ tool => tool.name) = .ok l ∧
        l.length = (echoServer.toolList 0).length :=
  mcpadapt_tools_one_per_advertised echoServer 0 (fun _ tool => tool.name) rfl

/-- C2: the constructor never produces a setup-timeout error, whatever the
server does: a slow server (ready after 2 seconds, beyond the 1-second
bound of the repository's own connect-timeout test) simply makes the
constructor return late, and a server that never completes startup leaves
the constructor blocked forever with the background thread still alive. -/
theorem mcpadapt_init_never_times_out :
    (∀ server : ServerBehavior, (MCPAdapt.init server).isTimeoutErr = false) ∧
    (∃ st, MCPAdapt.init slowStartServer = .ready st 2 ∧ st.threadAlive = true) ∧
    (∃ st, MCPAdapt.init neverReadyServer = .hangsForever st ∧
      st.threadAlive = true) := by
  refine ⟨fun server => ?_, ⟨_, rfl, rfl⟩, ⟨_, rfl, rfl⟩⟩
  cases h : server.readyAt <;> simp [MCPAdapt.init, h, InitOutcome.isTimeoutErr]

/-- C3: the re-list operations serve the frozen startup snapshot. Against
the update server (one tool in the first listing, two in every later one),
both tools() and atools() keep returning the single-tool list: neither
queries list_tools again, so the server-side addition never appears. -/
theorem mcpadapt_tools_serve_frozen_snapshot :
    ∃ st, MCPAdapt.init updateServer = .ready st 0 ∧
      MCPAdapt.tools st (fun _ tool => tool.name) = .ok ["echo_tool"] ∧
      MCPAdapt.atools st (fun _ tool => tool.name) = .ok ["echo_tool"] ∧
      (updateServer.toolList 1).map MCPTool.name = ["echo_tool", "new_tool"] :=
  ⟨_, rfl, rfl, rfl, rfl⟩

/-- C4 counterexample: invoking the forwarding callable on a closed bridge
(loop stopped, thread joined, session still bound) blocks forever on the
never-resolving future; it does not produce a clean closed-session error,
refuting the claim that it always does. -/
theorem syncCallTool_closed_hangs_counterexample :
    MCPAdapt.syncCallTool closedEchoState "echo_tool" none = .hang ∧
    CallOutcome.hang.isClosedError = false ∧
    ¬ ForwardingClosedCleanly := by
  refine ⟨rfl, rfl, fun h => ?_⟩
  have h2 := h closedEchoState "echo_tool" none rfl rfl
  have h3 : CallOutcome.hang = CallOutcome.closedError := h2
  exact CallOutcome.noConfusion h3

/-- C4 amended: the first half of the claim holds (tools() on a bridge whose
session was never assigned raises rather than returning tools), but a
forwarding callable invoked with the loop stopped hangs instead of
producing a clean closed error. -/
theorem mcpadapt_uninit_guard_and_closed_hang (st : BridgeState) {α : Type}
    (adaptF : ForwardingFunc → MCPTool → α) (name : String)
    (args : Option Arguments) :
    (st.session = none →
      MCPAdapt.tools st adaptF = .error (.runtimeError "Session not initialized")) ∧
    (∀ server, st.session = some server → st.loopRunning = false →
      MCPAdapt.syncCallTool st name args = .hang) := by
  constructor
  · intro h
    simp [MCPAdapt.tools, h]
  · intro server h1 h2
    simp [MCPAdapt.syncCallTool, h1, h2]

/-- Witness: the uninitialised bridge raises the session guard, and the
closed echo bridge hangs on a forwarded call. -/
theorem mcpadapt_uninit_guard_and_closed_hang_witness :
    MCPAdapt.tools uninitState (fun _ tool => tool.name)
      = .error (.runtimeError "Session not initialized") ∧
    MCPAdapt.syncCallTool closedEchoState "echo_tool" (some []) = .hang :=
  ⟨(mcpadapt_uninit_guard_and_closed_hang uninitState (fun _ tool => tool.name)
      "echo_tool" (some [])).1 rfl,
   (mcpadapt_uninit_guard_and_closed_hang closedEchoState (fun _ tool => tool.name)
      "echo_tool" (some [])).2 echoServer rfl rfl⟩

/-- C5 counterexample: acquiring the echo server asynchronously still
creates one background thread, because the constructor starts the dedicated
thread unconditionally before the asynchronous entry runs; this refutes the
claim that no extra thread is ever created for an async acquisition. -/
theorem asyncAcquire_spawns_thread_counterexample :
    (MCPAdapt.asyncAcquire echoServer).threads = some 1 ∧
    ¬ AsyncAcquireNoExtraThread := by
  refine ⟨rfl, fun h => ?_⟩
  have h2 := h echoServer 0 rfl
  have h3 : (some 1 : Option Nat) = some 0 := h2
  simp at h3

/-- C5 amended: an asynchronous acquisition creates exactly one background
thread — the one the constructor always starts — and the asynchronous entry
itself adds none: the acquired state is the constructed state with only the
session rebound. -/
theorem asyncAcquire_exactly_constructor_thread (server : ServerBehavior)
    (t : Nat) (h : server.readyAt = some t) :
    (MCPAdapt.asyncAcquire server).threads = some 1 ∧
    ∃ st, MCPAdapt.init server = .ready st t ∧ st.threadsSpawned = 1 ∧
      MCPAdapt.asyncAcquire server = .ok { st with session := some server } := by
  refine ⟨?_, ⟨{ session := some server
                 mcp_tools := some (server.toolList 0)
                 taskSet := true
                 threadAlive := true
                 loopRunning := true
                 threadsSpawned := 1 }, ?_, rfl, ?_⟩⟩
  · simp [MCPAdapt.asyncAcquire, MCPAdapt.init, h, AcquireOutcome.threads]
  · simp [MCPAdapt.init, h]
  · simp [MCPAdapt.asyncAcquire, MCPAdapt.init, h]

/-- Witness: the echo server acquisition spawns exactly the constructor
thread. -/
theorem asyncAcquire_exactly_constructor_thread_witness :
    (MCPAdapt.asyncAcquire echoServer).threads = some 1 ∧
    ∃ st, MCPAdapt.init echoServer = .ready st 0 ∧ st.threadsSpawned = 1 ∧
      MCPAdapt.asyncAcquire echoServer = .ok { st with session := some echoServer } :=
  asyncAcquire_exactly_constructor_thread echoServer 0 rfl

/-- C9: close always returns normally and is idempotent: closing any bridge
state (including one whose setup never assigned the session) yields the
closed state, and closing again returns the very same state unchanged. -/
theorem mcpadapt_close_idempotent (st : BridgeState) :
    MCPAdapt.close st = .ok (MCPAdapt.closedState st) ∧
    MCPAdapt.close (MCPAdapt.closedState st) = .ok (MCPAdapt.closedState st) ∧
    MCPAdapt.close uninitState = .ok (MCPAdapt.closedState uninitState) :=
  ⟨rfl, rfl, rfl⟩
